import Mathlib

/-!
Verification of the logify client-side logging helper (src/index.ts).

The embedding models JavaScript runtime values shallowly: a JS value is a
`Value`, an object is an insertion-ordered association list `Obj`, machine
effects (console writes, network sends) are accumulated in a `LogOutcome`
record, and a caller-supplied function that may throw is modelled as a Lean
function into `Except String _` (the `String` is the thrown exception).
The source has no try/catch around the caller-supplied parseError, so the
embedding propagates such exceptions exactly where the source does.
-/

namespace Logify

/-- A JavaScript runtime value, restricted to the shapes the logger can
meet: strings, numbers (modelled as integers, which covers every value the
spec and tests exercise), booleans, null, undefined, plain objects and
arrays. -/
inductive Value where
  | vStr (s : String)
  | vNum (n : Int)
  | vBool (b : Bool)
  | vNull
  | vUndefined
  | vObj (fields : List (String × Value))
  | vArr (elems : List Value)

/-- A JavaScript object: an insertion-ordered association list from keys to
values.  JS objects have unique keys; constructions below preserve that, and
theorems that need it take a Nodup hypothesis. -/
abbrev Obj := List (String × Value)

/-- JS truthiness: false, 0, empty string, null and undefined are falsy;
every object and array is truthy. -/
def truthyValue : Value → Bool
  | .vStr s => s != ""
  | .vNum n => n != 0
  | .vBool b => b
  | .vNull => false
  | .vUndefined => false
  | .vObj _ => true
  | .vArr _ => true

/-- Source isString: typeof value is string. -/
def isString : Value → Bool
  | .vStr _ => true
  | _ => false

/-- Source isNumber: typeof value is number. -/
def isNumber : Value → Bool
  | .vNum _ => true
  | _ => false

/-- Source isObject: typeof value is object and value is not null
(arrays have typeof object in JS). -/
def isObject : Value → Bool
  | .vObj _ => true
  | .vArr _ => true
  | _ => false

/-- Source isBoolean: typeof value is boolean. -/
def isBoolean : Value → Bool
  | .vBool _ => true
  | _ => false

/-- Property lookup on an object: the value of the first (and in a real JS
object, only) entry with the given key. -/
def lookupObj : Obj → String → Option Value
  | [], _ => none
  | (k', v') :: rest, k => if k' = k then some v' else lookupObj rest k

/-- JS property assignment obj[k] = v as used by object spread: an existing
key keeps its position and gets the new value, a fresh key is appended. -/
def setKey : Obj → String → Value → Obj
  | [], k, v => [(k, v)]
  | (k', v') :: rest, k, v =>
      if k' = k then (k, v) :: rest else (k', v') :: setKey rest k v

/-- JS object-literal spread: fold the entries of the second object into the
first with assignment semantics (later spreads override earlier ones). -/
def spreadObj (base : Obj) (extra : Obj) : Obj :=
  extra.foldl (fun acc kv => setKey acc kv.1 kv.2) base

/-- JS delete obj.k: removes the property.  With unique keys this is exactly
dropping the entry. -/
def eraseKey (o : Obj) (k : String) : Obj :=
  o.filter (fun kv => kv.1 != k)

/-- The own enumerable properties of a value, as produced by spreading it in
an object literal: objects give their fields, strings and arrays give their
indexed elements, primitives give nothing. -/
def ownEnumerable : Value → Obj
  | .vObj fs => fs
  | .vStr s => (s.data.enum.map (fun ic => (toString ic.1, Value.vStr ⟨[ic.2]⟩)))
  | .vArr xs => (xs.enum.map (fun iv => (toString iv.1, iv.2)))
  | _ => []

/-- Spreading an arbitrary value into an object, as in the source's
paramsToSend = { ...paramsToSend, ...formattedError } where formattedError
may be a non-object (the raw error fallback). -/
def spreadValue (base : Obj) (v : Value) : Obj :=
  spreadObj base (ownEnumerable v)

/-! ## Character-level machinery for the message sanitizer

The source sanitizes the backend message with
replace(/(?:[()\-&$#![\]\x7b\x7d"',.]+(?:\s|$)|(?:^|\s)[()\-&$#![\]\x7b\x7d"',.]+)/g, ' ')
followed by trim() and toLowerCase().  The machinery below models that
regular expression exactly: alternative A is a punctuation run followed by a
whitespace character (consumed) or the end of the string, alternative B is
the start of the string or a whitespace character (consumed) followed by a
punctuation run; the global scan tries A before B at each position and
replaces each match with a single space. -/

/-- The sanitizer's punctuation class, by code point:
( ) - & $ # ! [ ] left-brace right-brace double-quote quote comma dot. -/
def isPunct (c : Char) : Bool :=
  decide (c.toNat = 40 ∨ c.toNat = 41 ∨ c.toNat = 45 ∨ c.toNat = 38 ∨ c.toNat = 36 ∨
    c.toNat = 35 ∨ c.toNat = 33 ∨ c.toNat = 91 ∨ c.toNat = 93 ∨ c.toNat = 123 ∨
    c.toNat = 125 ∨ c.toNat = 34 ∨ c.toNat = 39 ∨ c.toNat = 44 ∨ c.toNat = 46)

/-- The JavaScript whitespace class, shared by the regex \s and by
String.prototype.trim, by code point. -/
def isJsSpace (c : Char) : Bool :=
  decide (c.toNat = 9 ∨ c.toNat = 10 ∨ c.toNat = 11 ∨ c.toNat = 12 ∨ c.toNat = 13 ∨
    c.toNat = 32 ∨ c.toNat = 160 ∨ c.toNat = 5760 ∨
    (8192 ≤ c.toNat ∧ c.toNat ≤ 8202) ∨ c.toNat = 8232 ∨ c.toNat = 8233 ∨
    c.toNat = 8239 ∨ c.toNat = 8287 ∨ c.toNat = 12288 ∨ c.toNat = 65279)

/-- String.prototype.toLowerCase, for the code points the logger meets:
the ASCII uppercase letters map down by 32, everything else is unchanged. -/
def jsToLower (c : Char) : Char :=
  if 65 ≤ c.toNat ∧ c.toNat ≤ 90 then Char.ofNat (c.toNat + 32) else c

/-- Length of the maximal punctuation run at the head of the list. -/
def punctRunLen : List Char → Nat
  | [] => 0
  | c :: cs => if isPunct c then punctRunLen cs + 1 else 0

/-- Regex alternative A at the current position: a nonempty punctuation run
followed by a whitespace character (which the match consumes) or by the end
of the string.  Greedy matching with backtracking degenerates to exactly
this, because a shorter run is necessarily followed by a punctuation
character, which is neither whitespace nor the end. -/
def matchA (l : List Char) : Option Nat :=
  let k := punctRunLen l
  if k = 0 then none
  else
    match l.drop k with
    | [] => some k
    | c :: _ => if isJsSpace c then some (k + 1) else none

/-- Regex alternative B at the current position: the start-of-string anchor
or a whitespace character (consumed), followed by a nonempty punctuation
run.  The anchor branch is tried first, as in the source pattern. -/
def matchB (atStart : Bool) (l : List Char) : Option Nat :=
  (if atStart then
    (let k := punctRunLen l
     if k = 0 then none else some k)
   else none) <|>
  (match l with
   | c :: rest =>
       if isJsSpace c then
         (let k := punctRunLen rest
          if k = 0 then none else some (k + 1))
       else none
   | [] => none)

/-- A match of the whole alternation at the current position: A, then B. -/
def matchAt (atStart : Bool) (l : List Char) : Option Nat :=
  matchA l <|> matchB atStart l

/-- One global replace pass: scan left to right, replace each match with a
single space and continue after it.  Every match consumes at least one
character, so fuel equal to the length of the list suffices; the fuel makes
the recursion structural, which keeps the definition kernel-reducible. -/
def regexPassAux : Nat → Bool → List Char → List Char
  | _, _, [] => []
  | 0, _, l => l
  | fuel + 1, atStart, c :: cs =>
    match matchAt atStart (c :: cs) with
    | some n => ' ' :: regexPassAux fuel false (cs.drop (n - 1))
    | none => c :: regexPassAux fuel false cs

/-- The source's global punctuation replace over a whole string. -/
def regexPass (l : List Char) : List Char :=
  regexPassAux l.length true l

/-- Drop JS whitespace from the front of a list. -/
def ldropSpace (l : List Char) : List Char :=
  l.dropWhile isJsSpace

/-- Drop JS whitespace from the back of a list. -/
def rdropSpace (l : List Char) : List Char :=
  (l.reverse.dropWhile isJsSpace).reverse

/-- String.prototype.trim over the character list. -/
def jsTrimList (l : List Char) : List Char :=
  ldropSpace (rdropSpace l)

/-- String.prototype.trim. -/
def jsTrimStr (s : String) : String :=
  ⟨jsTrimList s.data⟩

/-- The backend message sanitizer over a character list: punctuation
replace, then trim, then lowercase, in the source's order. -/
def sanitizeList (l : List Char) : List Char :=
  (jsTrimList (regexPass l)).map jsToLower

/-- The source's sanitizedMessage: message
.replace(punctuation regex, ' ').trim().toLowerCase(). -/
def sanitizeMessage (s : String) : String :=
  ⟨sanitizeList s.data⟩

/-! ## The Logger -/

/-- The five severity levels. -/
inductive LoggingLevel where
  | debug
  | info
  | warn
  | error
  | fatal

/-- type.toUpperCase() on a level name. -/
def levelUpper : LoggingLevel → String
  | .debug => "DEBUG"
  | .info => "INFO"
  | .warn => "WARN"
  | .error => "ERROR"
  | .fatal => "FATAL"

/-- Default console color per level (getDefaultColorForLoggingLevel). -/
def getDefaultColorForLoggingLevel : LoggingLevel → String
  | .debug => "#FFFFFF"
  | .info => "#2AA2F6"
  | .warn => "#FABA2F"
  | .error => "#F35369"
  | .fatal => "#F35369"

/-- A boolean-or-predicate configuration option (shouldSendLogsIf,
shouldLogToConsole): absent, a boolean constant, or a zero-argument
predicate.  The source dispatches on isBoolean/isFunction; the declared
option type makes those the only possibilities, so the tagged variant is
exact. -/
abbrev GateConfig := Option (Bool ⊕ (Unit → Bool))

/-- The constructor configuration (LogifyPropsType).  parseError is a
caller-supplied function that may throw; a thrown exception is an
Except.error carrying the thrown value's description.  defaultParams is a
constant map or a zero-argument supplier. -/
structure LogifyProps where
  endpoint : String
  defaultParams : Option (Obj ⊕ (Unit → Obj)) := none
  parseError : Option (Value → Except String Value) := none
  shouldSendLogsIf : GateConfig := none
  shouldLogToConsole : GateConfig := none
  printColors : LoggingLevel → Option String := fun _ => none

/-- Gate evaluation shared by _shouldLogToConsole and _sendLogToGrafana:
unset means true (the source falls through to the default action), a
boolean is used directly, a function is invoked. -/
def evalGate : GateConfig → Bool
  | none => true
  | some (.inl b) => b
  | some (.inr f) => f ()

/-- The value a param entry contributes to the console log string: the
parseError output replaces the raw value under the error key when a
parseError is configured (source _transformObjectToLogString, the
key === 'error' && isFunction(parseError) branch). -/
def resolveConsoleValue (pe : Option (Value → Except String Value))
    (k : String) (v : Value) : Except String Value :=
  match pe with
  | some f => if k = "error" then f v else .ok v
  | none => .ok v

/-- Template-literal rendering of a value, used for the string/number
values that survive into key=value tokens. -/
def displayChars : Value → List Char
  | .vStr s => s.data
  | .vNum n => (toString n).data
  | .vBool b => (cond b "true" "false").data
  | .vNull => ("null").data
  | .vUndefined => ("undefined").data
  | .vObj _ => ("[object Object]").data
  | .vArr _ => []

/-- One key=value token of the console log string. -/
def tokenChars (k : String) (v : Value) : List Char :=
  k.data ++ '=' :: displayChars v

/-- The forEach body of _transformObjectToLogString: resolve each entry's
value, keep a key=value token followed by a space exactly when the resolved
value is a string or a number.  A parseError exception propagates, as in the
source, from the first entry that throws. -/
def transformEntries (pe : Option (Value → Except String Value)) :
    List (String × Value) → Except String (List Char)
  | [] => .ok []
  | (k, v) :: rest => do
      let value ← resolveConsoleValue pe k v
      let tail ← transformEntries pe rest
      .ok ((if isString value || isNumber value then tokenChars k value ++ [' '] else []) ++ tail)

/-- Source _transformObjectToLogString: build the key=value log string and
trim it; an absent params map gives the empty string.  (A present params
map always passes the isObject guard.) -/
def transformObjectToLogString (pe : Option (Value → Except String Value))
    (params : Option Obj) : Except String String :=
  match params with
  | some p => (transformEntries pe p).map (fun l => (⟨jsTrimList l⟩ : String))
  | none => .ok ""

/-- Source: logString.split(' ').join('\n'), the reformatting of the param
string for console display.  Splitting on every single space and rejoining
with newlines is the same as replacing each space character. -/
def splitSpacesJoinNewlines (s : String) : String :=
  ⟨s.data.map (fun c => if c = ' ' then '\n' else c)⟩

/-- A single console.log invocation, as its argument list. -/
abbrev ConsoleCall := List Value

/-- A single initiated POST: the destination URL and the body text.  The
request is fire-and-forget; headers are fixed in the source and carry no
information, so they are not modelled. -/
structure SendCall where
  url : String
  body : String

/-- Source _constructStyledConsoleLogMessage: the three styled console.log
arguments.  printColors override falls back (by JS truthiness) to the
default palette. -/
def constructStyledConsoleLogMessage (cfg : LogifyProps) (lvl : LoggingLevel)
    (message : String) (params : String) : ConsoleCall :=
  let typeText := levelUpper lvl
  let loggingColor :=
    match cfg.printColors lvl with
    | some c => if c != "" then c else getDefaultColorForLoggingLevel lvl
    | none => getDefaultColorForLoggingLevel lvl
  let paramsString := if params.length > 0 then params ++ "\n\n" else ""
  let title := "\n\n%c" ++ typeText ++ "%c " ++ message ++ "\n\n" ++ paramsString
  let titleStyle := "font-weight: bold; font-size: 14px; color: black; padding: 0px 7px; background-color: " ++ loggingColor ++ ";"
  let messageStyle := "font-weight: bold; font-size: 12px; color: " ++ loggingColor ++ ";"
  [.vStr title, .vStr titleStyle, .vStr messageStyle]

/-- JSON string escaping for the characters the logger's payloads can
contain (backslash, double quote, and the common control characters). -/
def jsonEscapeChars : List Char → List Char
  | [] => []
  | c :: cs =>
      (if c = '\\' then ['\\', '\\']
       else if c.toNat = 34 then ['\\', '"']
       else if c = '\n' then ['\\', 'n']
       else if c = '\t' then ['\\', 't']
       else if c.toNat = 13 then ['\\', 'r']
       else [c]) ++ jsonEscapeChars cs

/-- JSON.stringify.  A value that does not serialize (undefined) yields
none; inside an object such entries are skipped, inside an array they
become null. -/
def jsonStringify : Value → Option String
  | .vStr s => some ("\"" ++ (⟨jsonEscapeChars s.data⟩ : String) ++ "\"")
  | .vNum n => some (toString n)
  | .vBool b => some (cond b "true" "false")
  | .vNull => some "null"
  | .vUndefined => none
  | .vObj fs => some ("\x7b" ++ String.intercalate "," (fieldStrings fs) ++ "\x7d")
  | .vArr xs => some ("[" ++ String.intercalate "," (elemStrings xs) ++ "]")
where
  fieldStrings : List (String × Value) → List String
    | [] => []
    | (k, v) :: rest =>
        (match jsonStringify v with
         | some sv => ["\"" ++ (⟨jsonEscapeChars k.data⟩ : String) ++ "\":" ++ sv]
         | none => []) ++ fieldStrings rest
  elemStrings : List Value → List String
    | [] => []
    | v :: rest => ((jsonStringify v).getD "null") :: elemStrings rest

/-- The backend log event, together with the observable it leaves behind:
the payload object that was serialized (so that theorems can speak about
its fields), the serialized jsonLog the source returns, and the caller's
params object as the call leaves it (the source's delete mutates the
caller's own map, while the subsequent spread builds a fresh local one).
The source also returns a capture timestamp (new Date().getTime()); it is
environment-supplied, appears nowhere in the serialized payload and no
claim concerns it, so it is not modelled. -/
structure BackendLogEvent where
  payload : Obj
  jsonLog : String
  mutatedParams : Option Obj

/-- The source's formattedError resolution:
parseError?.(params?.error) || (params?.error).  An absent params map or
error key passes undefined to parseError; a falsy parseError result falls
back to the raw value; a parseError exception propagates. -/
def formattedErrorOf (pe : Option (Value → Except String Value))
    (params : Option Obj) : Except String Value :=
  let e := match params with
    | some p => (lookupObj p "error").getD .vUndefined
    | none => .vUndefined
  match pe with
  | none => .ok e
  | some f => do
      let r ← f e
      .ok (if truthyValue r then r else e)

/-- Source defaultParams resolution: invoke a supplier, use a constant map,
else empty. -/
def resolveDefaultParams : Option (Obj ⊕ (Unit → Obj)) → Obj
  | some (.inr f) => f ()
  | some (.inl o) => o
  | none => []

/-- Source _constructBackendLogEvent.  Computes formattedError, resolves the
defaults, sanitizes the message; when a params map is present and the
formatted error is truthy the raw error key is deleted from the caller's
map and the formatted error's own enumerable fields are spread over the
remainder into a fresh map; the payload is
level, msg, ...defaultParams, ...(paramsToSend or empty). -/
def constructBackendLogEvent (cfg : LogifyProps) (lvl : LoggingLevel)
    (message : String) (params : Option Obj) : Except String BackendLogEvent := do
  let uppercaseType := levelUpper lvl
  let formattedError ← formattedErrorOf cfg.parseError params
  let defaultParams := resolveDefaultParams cfg.defaultParams
  let sanitizedMessage := sanitizeMessage message
  let paramsToSend : Option Obj :=
    match params with
    | some p =>
        if truthyValue formattedError then
          some (spreadValue (eraseKey p "error") formattedError)
        else some p
    | none => none
  let mutated : Option Obj :=
    match params with
    | some p => if truthyValue formattedError then some (eraseKey p "error") else some p
    | none => none
  let payload :=
    spreadObj
      (spreadObj [("level", .vStr uppercaseType), ("msg", .vStr sanitizedMessage)]
        defaultParams)
      (paramsToSend.getD [])
  .ok { payload := payload
        jsonLog := (jsonStringify (.vObj payload)).getD "undefined"
        mutatedParams := mutated }

/-- Source _sendLogToGrafana: when a send gate is configured it is
consulted (boolean directly, predicate invoked); when it is not, the send
happens unconditionally.  An initiated send is recorded as one SendCall;
initiation failure of the fire-and-forget fetch is environment-driven and
out of the model. -/
def sendLogToGrafanaSends (cfg : LogifyProps) (log : String) : List SendCall :=
  if evalGate cfg.shouldSendLogsIf then [{ url := cfg.endpoint, body := log }] else []

/-- Source _shouldLogToConsole: configured boolean or predicate, defaulting
to true. -/
def shouldLogToConsole (cfg : LogifyProps) : Bool :=
  evalGate cfg.shouldLogToConsole

/-- Everything a public log method leaves behind: the exception it threw
(none when it returned normally), the console.log calls it made before any
throw, the sends it initiated, and the caller's params object as the caller
sees it after the call (the source mutates it in place). -/
structure LogOutcome where
  thrown : Option String
  consoleWrites : List ConsoleCall
  sends : List SendCall
  callerParams : Option Obj

/-- The shared body of info/warn/error/fatal: build the console string
(a parseError exception escapes here, before any effect), render and
conditionally emit the styled console message, construct the backend event
(a parseError exception escapes here too, after the console write), then
run the send gate and dispatch. -/
def logGeneral (cfg : LogifyProps) (lvl : LoggingLevel) (message : String)
    (params : Option Obj) : LogOutcome :=
  match transformObjectToLogString cfg.parseError params with
  | .error e => { thrown := some e, consoleWrites := [], sends := [], callerParams := params }
  | .ok ls =>
    let logMessage :=
      constructStyledConsoleLogMessage cfg lvl message (splitSpacesJoinNewlines ls)
    let writes := if shouldLogToConsole cfg then [logMessage] else []
    match constructBackendLogEvent cfg lvl message params with
    | .error e => { thrown := some e, consoleWrites := writes, sends := [], callerParams := params }
    | .ok ev =>
        { thrown := none
          consoleWrites := writes
          sends := sendLogToGrafanaSends cfg ev.jsonLog
          callerParams := ev.mutatedParams }

/-- Source info. -/
def info (cfg : LogifyProps) (message : String) (params : Option Obj) : LogOutcome :=
  logGeneral cfg .info message params

/-- Source warn. -/
def warn (cfg : LogifyProps) (message : String) (params : Option Obj) : LogOutcome :=
  logGeneral cfg .warn message params

/-- Source error. -/
def error (cfg : LogifyProps) (message : String) (params : Option Obj) : LogOutcome :=
  logGeneral cfg .error message params

/-- Source fatal. -/
def fatal (cfg : LogifyProps) (message : String) (params : Option Obj) : LogOutcome :=
  logGeneral cfg .fatal message params

/-- Source debug: build the console string (a parseError exception escapes
here), then write to the console unconditionally -- no gate consultation,
no backend construction, no send, no mutation.  The raw params map (or ''
when absent) is passed as a trailing console.log argument. -/
def debug (cfg : LogifyProps) (message : String) (params : Option Obj) : LogOutcome :=
  match transformObjectToLogString cfg.parseError params with
  | .error e => { thrown := some e, consoleWrites := [], sends := [], callerParams := params }
  | .ok ls =>
    let logMessage :=
      constructStyledConsoleLogMessage cfg .debug message (splitSpacesJoinNewlines ls)
    { thrown := none
      consoleWrites := [logMessage ++ [match params with
        | some p => .vObj p
        | none => .vStr ""]]
      sends := []
      callerParams := params }

/-! ## Specification-side definitions

These follow the spec's words, for comparison against the source-derived
definitions above. -/

/-- Spec side, for the console rendering: one key=value token for each
entry whose resolved value is a string or a number, and no token for any
other entry. -/
def consoleTokens (pe : Option (Value → Except String Value)) : Obj → List (List Char)
  | [] => []
  | (k, v) :: rest =>
      (match resolveConsoleValue pe k v with
       | .ok rv => if isString rv || isNumber rv then [tokenChars k rv] else []
       | .error _ => []) ++ consoleTokens pe rest

/-- Space-join of a token list, the spec's reading of the rendering. -/
def intercalateSpace : List (List Char) → List Char
  | [] => []
  | [t] => t
  | t :: ts => t ++ ' ' :: intercalateSpace ts

/-- The raw concatenation the source actually builds before trimming: every
token followed by one space. -/
def rawJoin : List (List Char) → List Char
  | [] => []
  | t :: ts => t ++ ' ' :: rawJoin ts

/-- The payload object assembled when no error merge happens:
level, msg, ...defaults, ...params. -/
def plainPayload (lvl : LoggingLevel) (msg : String) (d p : Obj) : Obj :=
  spreadObj
    (spreadObj [("level", .vStr (levelUpper lvl)), ("msg", .vStr (sanitizeMessage msg))] d) p

/-! ## Concrete fixtures used by witnesses and counterexamples -/

/-- A caller-supplied error normalizer that throws on every input. -/
def throwingParseError : Value → Except String Value :=
  fun _ => .error "boom"

/-- A caller-supplied error normalizer that returns undefined (a falsy
result) on every input. -/
def falsyParseError : Value → Except String Value :=
  fun _ => .ok .vUndefined

/-- The spec's section-8 scenario normalizer: always code 500, detail x. -/
def code500ParseError : Value → Except String Value :=
  fun _ => .ok (.vObj [("code", .vNum 500), ("detail", .vStr "x")])

/-- A logger configured with only an endpoint. -/
def cfgPlain : LogifyProps :=
  { endpoint := "https://logs.example/ingest" }

/-- A logger whose parseError throws. -/
def cfgThrowing : LogifyProps :=
  { endpoint := "https://logs.example/ingest", parseError := some throwingParseError }

/-- A logger whose parseError throws and whose console gate is off. -/
def cfgThrowingConsoleOff : LogifyProps :=
  { endpoint := "https://logs.example/ingest", parseError := some throwingParseError,
    shouldLogToConsole := some (.inl false) }

/-- A logger with the console gate configured off. -/
def cfgConsoleOff : LogifyProps :=
  { endpoint := "https://logs.example/ingest", shouldLogToConsole := some (.inl false) }

/-- A logger with the send gate configured as the boolean false. -/
def cfgSendOff : LogifyProps :=
  { endpoint := "https://logs.example/ingest", shouldSendLogsIf := some (.inl false) }

/-- A logger whose parseError always returns a falsy result. -/
def cfgFalsyPE : LogifyProps :=
  { endpoint := "https://logs.example/ingest", parseError := some falsyParseError }

/-- A logger with the spec's section-7 normalizer and a constant default
map. -/
def cfgCode500 : LogifyProps :=
  { endpoint := "https://logs.example/ingest",
    defaultParams := some (.inl [("env", .vStr "prod")]),
    parseError := some code500ParseError }

/-- A logger with a constant defaultParams map, as in the spec's merge
example. -/
def cfgDefaultsEnvProd : LogifyProps :=
  { endpoint := "https://logs.example/ingest",
    defaultParams := some (.inl [("env", .vStr "prod")]) }

/-- A params map holding only an error key. -/
def errorOnlyParams : Obj := [("error", .vNull)]

/-- A params map with a truthy error value and one ordinary entry. -/
def truthyErrorParams : Obj :=
  [("error", .vObj [("reason", .vStr "r")]), ("keep", .vNum 1)]

/-- The spec's merge-order example params. -/
def envDevParams : Obj := [("env", .vStr "dev"), ("code", .vNum 7)]

/-- A params map mixing primitive values with a nested object value. -/
def mixedParams : Obj := [("a", .vNum 1), ("o", .vObj []), ("s", .vStr "x")]

/-! ## Lemmas about objects -/

theorem spreadObj_nil (b : Obj) : spreadObj b [] = b := rfl

theorem spreadObj_cons (b : Obj) (k : String) (v : Value) (e : Obj) :
    spreadObj b ((k, v) :: e) = spreadObj (setKey b k v) e := rfl

theorem lookupObj_setKey_self (o : Obj) (k : String) (v : Value) :
    lookupObj (setKey o k v) k = some v := by
  induction o with
  | nil => simp [setKey, lookupObj]
  | cons kv rest ih =>
      obtain ⟨k', v'⟩ := kv
      by_cases h : k' = k
      · simp [setKey, h, lookupObj]
      · simp [setKey, h, lookupObj, ih]

theorem lookupObj_setKey_ne (o : Obj) (k k' : String) (v : Value) (h : k' ≠ k) :
    lookupObj (setKey o k' v) k = lookupObj o k := by
  induction o with
  | nil => simp [setKey, lookupObj, h]
  | cons kv rest ih =>
      obtain ⟨k'', v''⟩ := kv
      by_cases h2 : k'' = k'
      · subst h2
        simp [setKey, lookupObj, h]
      · simp [setKey, h2, lookupObj, ih]

theorem lookupObj_spreadObj_not_mem (b e : Obj) (k : String)
    (h : ∀ kv ∈ e, kv.1 ≠ k) : lookupObj (spreadObj b e) k = lookupObj b k := by
  induction e generalizing b with
  | nil => rfl
  | cons kv rest ih =>
      obtain ⟨k', v'⟩ := kv
      rw [spreadObj_cons, ih _ (fun kv hkv => h kv (List.mem_cons_of_mem _ hkv)),
        lookupObj_setKey_ne _ _ _ _ (h (k', v') (List.mem_cons_self _ _))]

theorem lookupObj_spreadObj_mem (b e : Obj) (k : String) (v : Value)
    (hnd : (e.map Prod.fst).Nodup) (h : lookupObj e k = some v) :
    lookupObj (spreadObj b e) k = some v := by
  induction e generalizing b with
  | nil => simp [lookupObj] at h
  | cons kv rest ih =>
      obtain ⟨k', v'⟩ := kv
      simp only [List.map_cons, List.nodup_cons] at hnd
      by_cases hk : k' = k
      · subst hk
        simp [lookupObj] at h
        subst h
        rw [spreadObj_cons,
          lookupObj_spreadObj_not_mem _ _ _
            (by
              intro kv hkv heq
              refine hnd.1 ?_
              rw [← heq]
              exact List.mem_map_of_mem Prod.fst hkv),
          lookupObj_setKey_self]
      · simp only [lookupObj, if_neg hk] at h
        rw [spreadObj_cons, ih _ hnd.2 h]

theorem keys_setKey_subset (o : Obj) (k k' : String) (v : Value)
    (h : k' ∈ (setKey o k v).map Prod.fst) : k' ∈ o.map Prod.fst ∨ k' = k := by
  induction o with
  | nil => simpa [setKey] using h
  | cons kv rest ih =>
      obtain ⟨k'', v''⟩ := kv
      by_cases h2 : k'' = k
      · simp only [setKey, if_pos h2, List.map_cons, List.mem_cons] at h ⊢
        rcases h with h | h
        · exact Or.inr h
        · exact Or.inl (Or.inr h)
      · simp only [setKey, if_neg h2, List.map_cons, List.mem_cons] at h ⊢
        rcases h with h | h
        · exact Or.inl (Or.inl h)
        · rcases ih h with h3 | h3
          · exact Or.inl (Or.inr h3)
          · exact Or.inr h3

theorem keys_spreadObj_subset (b e : Obj) (k : String)
    (h : k ∈ (spreadObj b e).map Prod.fst) :
    k ∈ b.map Prod.fst ∨ k ∈ e.map Prod.fst := by
  induction e generalizing b with
  | nil => exact Or.inl h
  | cons kv rest ih =>
      obtain ⟨k', v'⟩ := kv
      rw [spreadObj_cons] at h
      rcases ih _ h with h2 | h2
      · rcases keys_setKey_subset _ _ _ _ h2 with h3 | h3
        · exact Or.inl h3
        · exact Or.inr (by simp [h3])
      · exact Or.inr (by simp [h2])

theorem lookupObj_eq_none_of_not_mem (o : Obj) (k : String)
    (h : k ∉ o.map Prod.fst) : lookupObj o k = none := by
  induction o with
  | nil => rfl
  | cons kv rest ih =>
      obtain ⟨k', v'⟩ := kv
      simp only [List.map_cons, List.mem_cons, not_or] at h
      simp [lookupObj, Ne.symm h.1, ih h.2]

theorem not_mem_keys_eraseKey (o : Obj) (k : String) :
    k ∉ (eraseKey o k).map Prod.fst := by
  intro h
  rcases List.mem_map.mp h with ⟨kv, hkv, hfst⟩
  rcases List.mem_filter.mp hkv with ⟨_, hne⟩
  simp only [bne_iff_ne, ne_eq] at hne
  exact hne hfst

theorem eraseKey_cons (k' : String) (v' : Value) (rest : Obj) (k : String) :
    eraseKey ((k', v') :: rest) k =
      if k' = k then eraseKey rest k else (k', v') :: eraseKey rest k := by
  by_cases h : k' = k
  · simp [eraseKey, List.filter_cons, h]
  · simp [eraseKey, List.filter_cons, h]

theorem lookupObj_eraseKey_ne (o : Obj) (k k' : String) (h : k' ≠ k) :
    lookupObj (eraseKey o k') k = lookupObj o k := by
  induction o with
  | nil => rfl
  | cons kv rest ih =>
      obtain ⟨k'', v''⟩ := kv
      rw [eraseKey_cons]
      by_cases h2 : k'' = k'
      · subst h2
        have h3 : k'' ≠ k := fun he => h (he ▸ rfl)
        simp [lookupObj, h3, ih]
      · simp [lookupObj, h2, ih]

theorem nodup_keys_eraseKey (p : Obj) (k : String)
    (h : (p.map Prod.fst).Nodup) : ((eraseKey p k).map Prod.fst).Nodup :=
  ((List.filter_sublist p).map Prod.fst).nodup h

theorem nodup_keys_setKey (o : Obj) (k : String) (v : Value)
    (h : (o.map Prod.fst).Nodup) : ((setKey o k v).map Prod.fst).Nodup := by
  induction o with
  | nil => simp [setKey]
  | cons kv rest ih =>
      obtain ⟨k', v'⟩ := kv
      simp only [List.map_cons, List.nodup_cons] at h
      by_cases h2 : k' = k
      · subst h2
        have hsk : setKey ((k', v') :: rest) k' v = (k', v) :: rest := by
          simp [setKey]
        rw [hsk, List.map_cons, List.nodup_cons]
        exact h
      · simp only [setKey, if_neg h2, List.map_cons, List.nodup_cons]
        refine ⟨?_, ih h.2⟩
        intro hmem
        rcases keys_setKey_subset _ _ _ _ hmem with h3 | h3
        · exact h.1 h3
        · exact h2 h3

theorem nodup_keys_spreadObj (b e : Obj) (hb : (b.map Prod.fst).Nodup) :
    ((spreadObj b e).map Prod.fst).Nodup := by
  induction e generalizing b with
  | nil => exact hb
  | cons kv rest ih =>
      obtain ⟨k, v⟩ := kv
      rw [spreadObj_cons]
      exact ih _ (nodup_keys_setKey _ _ _ hb)

theorem lookupObj_mem_value_unique (p : Obj) (k : String) (e : Value)
    (hnd : (p.map Prod.fst).Nodup) (h : lookupObj p k = some e) :
    ∀ v : Value, (k, v) ∈ p → v = e := by
  induction p with
  | nil => intro v hv; simp at hv
  | cons kv rest ih =>
      obtain ⟨k', v'⟩ := kv
      simp only [List.map_cons, List.nodup_cons] at hnd
      intro v hv
      rcases List.mem_cons.mp hv with hv | hv
      · rw [Prod.mk.injEq] at hv
        obtain ⟨h1, h2⟩ := hv
        subst h1
        simp [lookupObj] at h
        exact h2.trans h
      · by_cases hk : k' = k
        · subst hk
          exact absurd (List.mem_map_of_mem Prod.fst hv) hnd.1
        · simp only [lookupObj, if_neg hk] at h
          exact ih hnd.2 h v hv

/-! ## Lemmas about characters, trimming and the sanitizer -/

theorem toNat_ofNat_of_valid (n : Nat) (h : n.isValidChar) :
    (Char.ofNat n).toNat = n := by
  unfold Char.ofNat
  simp [h]
  unfold Char.ofNatAux
  rfl

theorem toNat_jsToLower_of_upper (c : Char) (h : 65 ≤ c.toNat ∧ c.toNat ≤ 90) :
    (jsToLower c).toNat = c.toNat + 32 := by
  unfold jsToLower
  rw [if_pos h]
  exact toNat_ofNat_of_valid _ (Or.inl (by omega))

theorem jsToLower_of_not_upper (c : Char) (h : ¬(65 ≤ c.toNat ∧ c.toNat ≤ 90)) :
    jsToLower c = c := by
  unfold jsToLower
  rw [if_neg h]

theorem jsToLower_idem (c : Char) : jsToLower (jsToLower c) = jsToLower c := by
  by_cases h : 65 ≤ c.toNat ∧ c.toNat ≤ 90
  · refine jsToLower_of_not_upper _ ?_
    rw [toNat_jsToLower_of_upper c h]
    omega
  · rw [jsToLower_of_not_upper c h]
    exact jsToLower_of_not_upper c h

theorem isPunct_jsToLower (c : Char) : isPunct (jsToLower c) = isPunct c := by
  by_cases h : 65 ≤ c.toNat ∧ c.toNat ≤ 90
  · have h32 := toNat_jsToLower_of_upper c h
    have h1 : isPunct (jsToLower c) = false := by
      simp only [isPunct, h32, decide_eq_false_iff_not]
      omega
    have h2 : isPunct c = false := by
      simp only [isPunct, decide_eq_false_iff_not]
      omega
    rw [h1, h2]
  · rw [jsToLower_of_not_upper c h]

theorem isJsSpace_jsToLower (c : Char) : isJsSpace (jsToLower c) = isJsSpace c := by
  by_cases h : 65 ≤ c.toNat ∧ c.toNat ≤ 90
  · have h32 := toNat_jsToLower_of_upper c h
    have h1 : isJsSpace (jsToLower c) = false := by
      simp only [isJsSpace, h32, decide_eq_false_iff_not]
      omega
    have h2 : isJsSpace c = false := by
      simp only [isJsSpace, decide_eq_false_iff_not]
      omega
    rw [h1, h2]
  · rw [jsToLower_of_not_upper c h]

theorem dropWhile_self (p : Char → Bool) (l : List Char) :
    (l.dropWhile p).dropWhile p = l.dropWhile p := by
  induction l with
  | nil => rfl
  | cons c cs ih =>
      by_cases h : p c
      · simp [List.dropWhile_cons, h, ih]
      · simp [List.dropWhile_cons, h]

theorem dropWhile_head_false (p : Char → Bool) (l : List Char) (c : Char)
    (t : List Char) (h : l.dropWhile p = c :: t) : p c = false := by
  induction l with
  | nil => simp at h
  | cons c' cs ih =>
      by_cases h2 : p c'
      · rw [List.dropWhile_cons, if_pos h2] at h
        exact ih h
      · rw [List.dropWhile_cons, if_neg h2] at h
        obtain ⟨h3, _⟩ := List.cons.inj h
        subst h3
        exact Bool.eq_false_iff.mpr h2

theorem dropWhile_map_invariant (p : Char → Bool) (f : Char → Char)
    (hf : ∀ c, p (f c) = p c) (l : List Char) :
    (l.map f).dropWhile p = (l.dropWhile p).map f := by
  induction l with
  | nil => rfl
  | cons c cs ih =>
      by_cases h : p c
      · simp [List.dropWhile_cons, hf, h, ih]
      · simp [List.dropWhile_cons, hf, h]

theorem mem_ldropSpace (l : List Char) (c : Char) (h : c ∈ ldropSpace l) : c ∈ l :=
  (List.dropWhile_sublist _).subset h

theorem mem_rdropSpace (l : List Char) (c : Char) (h : c ∈ rdropSpace l) : c ∈ l := by
  unfold rdropSpace at h
  rw [List.mem_reverse] at h
  exact List.mem_reverse.mp ((List.dropWhile_sublist _).subset h)

theorem mem_jsTrimList (l : List Char) (c : Char) (h : c ∈ jsTrimList l) : c ∈ l :=
  mem_rdropSpace _ _ (mem_ldropSpace _ _ h)

theorem rdropSpace_reverse_eq (l : List Char) :
    (rdropSpace l).reverse = l.reverse.dropWhile isJsSpace := by
  unfold rdropSpace
  rw [List.reverse_reverse]

theorem rdropSpace_eq_self_of_last (l : List Char) (c : Char) (t : List Char)
    (hrev : l.reverse = c :: t) (hc : isJsSpace c = false) : rdropSpace l = l := by
  unfold rdropSpace
  rw [hrev, List.dropWhile_cons, if_neg (by simp [hc]), ← hrev, List.reverse_reverse]

theorem rdropSpace_ldropSpace_rdropSpace (l : List Char) :
    rdropSpace (ldropSpace (rdropSpace l)) = ldropSpace (rdropSpace l) := by
  cases hyr : (ldropSpace (rdropSpace l)).reverse with
  | nil =>
      have h0 : ldropSpace (rdropSpace l) = [] := by
        have := congrArg List.reverse hyr
        simpa using this
      rw [h0]
      rfl
  | cons c t =>
      refine rdropSpace_eq_self_of_last _ c t hyr ?_
      obtain ⟨u, hu⟩ := List.dropWhile_suffix (l := rdropSpace l) isJsSpace
      have hzrev : (rdropSpace l).reverse = c :: (t ++ u.reverse) := by
        rw [← hu]
        show (u ++ ldropSpace (rdropSpace l)).reverse = _
        rw [List.reverse_append, hyr]
        simp
      rw [rdropSpace_reverse_eq] at hzrev
      exact dropWhile_head_false _ _ _ _ hzrev

theorem jsTrimList_idem (l : List Char) :
    jsTrimList (jsTrimList l) = jsTrimList l := by
  show ldropSpace (rdropSpace (ldropSpace (rdropSpace l))) = ldropSpace (rdropSpace l)
  rw [rdropSpace_ldropSpace_rdropSpace]
  exact dropWhile_self _ _

theorem ldropSpace_map_jsToLower (l : List Char) :
    ldropSpace (l.map jsToLower) = (ldropSpace l).map jsToLower :=
  dropWhile_map_invariant _ _ isJsSpace_jsToLower l

theorem rdropSpace_map_jsToLower (l : List Char) :
    rdropSpace (l.map jsToLower) = (rdropSpace l).map jsToLower := by
  unfold rdropSpace
  rw [← List.map_reverse, dropWhile_map_invariant _ _ isJsSpace_jsToLower,
    List.map_reverse]

theorem jsTrimList_map_jsToLower (l : List Char) :
    jsTrimList (l.map jsToLower) = (jsTrimList l).map jsToLower := by
  unfold jsTrimList
  rw [rdropSpace_map_jsToLower, ldropSpace_map_jsToLower]

theorem punctRunLen_eq_zero (l : List Char) (h : ∀ c ∈ l, isPunct c = false) :
    punctRunLen l = 0 := by
  cases l with
  | nil => rfl
  | cons c cs => simp [punctRunLen, h c (List.mem_cons_self _ _)]

theorem matchA_eq_none (l : List Char) (h : ∀ c ∈ l, isPunct c = false) :
    matchA l = none := by
  simp [matchA, punctRunLen_eq_zero l h]

theorem matchB_eq_none (b : Bool) (l : List Char) (h : ∀ c ∈ l, isPunct c = false) :
    matchB b l = none := by
  cases l with
  | nil => cases b <;> rfl
  | cons c cs =>
      have h1 : punctRunLen (c :: cs) = 0 := punctRunLen_eq_zero _ h
      have h2 : punctRunLen cs = 0 :=
        punctRunLen_eq_zero _ (fun c' hc' => h c' (List.mem_cons_of_mem _ hc'))
      simp [matchB, h1, h2]

theorem matchAt_eq_none (b : Bool) (l : List Char) (h : ∀ c ∈ l, isPunct c = false) :
    matchAt b l = none := by
  simp [matchAt, matchA_eq_none l h, matchB_eq_none b l h]

theorem regexPassAux_id (fuel : Nat) (b : Bool) (l : List Char)
    (h : ∀ c ∈ l, isPunct c = false) : regexPassAux fuel b l = l := by
  induction fuel generalizing b l with
  | zero => cases l <;> rfl
  | succ n ih =>
      cases l with
      | nil => rfl
      | cons c cs =>
          rw [regexPassAux, matchAt_eq_none b (c :: cs) h]
          rw [ih false cs (fun c' hc' => h c' (List.mem_cons_of_mem _ hc'))]

theorem regexPass_id (l : List Char) (h : ∀ c ∈ l, isPunct c = false) :
    regexPass l = l :=
  regexPassAux_id _ _ _ h

theorem sanitizeList_no_punct (l : List Char) (h : ∀ c ∈ l, isPunct c = false) :
    sanitizeList l = (jsTrimList l).map jsToLower := by
  unfold sanitizeList
  rw [regexPass_id l h]

theorem sanitizeList_idem_of_no_punct (l : List Char)
    (h : ∀ c ∈ l, isPunct c = false) :
    sanitizeList (sanitizeList l) = sanitizeList l := by
  rw [sanitizeList_no_punct l h]
  have h2 : ∀ c ∈ (jsTrimList l).map jsToLower, isPunct c = false := by
    intro c hc
    rcases List.mem_map.mp hc with ⟨c', hc', rfl⟩
    rw [isPunct_jsToLower]
    exact h c' (mem_jsTrimList l c' hc')
  rw [sanitizeList_no_punct _ h2, jsTrimList_map_jsToLower, jsTrimList_idem,
    List.map_map]
  simp [Function.comp, jsToLower_idem]

theorem isJsSpace_space : isJsSpace ' ' = true := by decide

theorem rdropSpace_append_space (l : List Char) :
    rdropSpace (l ++ [' ']) = rdropSpace l := by
  unfold rdropSpace
  rw [List.reverse_append]
  simp [List.dropWhile_cons, isJsSpace_space]

theorem jsTrimList_append_space (l : List Char) :
    jsTrimList (l ++ [' ']) = jsTrimList l := by
  unfold jsTrimList
  rw [rdropSpace_append_space]

theorem rawJoin_eq_intercalateSpace (ts : List (List Char)) (h : ts ≠ []) :
    rawJoin ts = intercalateSpace ts ++ [' '] := by
  induction ts with
  | nil => contradiction
  | cons t ts' ih =>
      cases ts' with
      | nil => simp [rawJoin, intercalateSpace]
      | cons t' ts'' =>
          rw [rawJoin, ih (List.cons_ne_nil _ _),
            show intercalateSpace (t :: t' :: ts'') =
              t ++ ' ' :: intercalateSpace (t' :: ts'') from rfl]
          simp

theorem jsTrimList_rawJoin (ts : List (List Char)) :
    jsTrimList (rawJoin ts) = jsTrimList (intercalateSpace ts) := by
  cases ts with
  | nil => rfl
  | cons t ts' =>
      rw [rawJoin_eq_intercalateSpace _ (by simp), jsTrimList_append_space]

/-! ## Lemmas about the console log string -/

theorem transformEntries_ok (pe : Option (Value → Except String Value)) (p : Obj)
    (l : List Char) (h : transformEntries pe p = .ok l) :
    l = rawJoin (consoleTokens pe p) := by
  induction p generalizing l with
  | nil =>
      simp only [transformEntries, Except.ok.injEq] at h
      simp [consoleTokens, rawJoin, ← h]
  | cons kv rest ih =>
      obtain ⟨k, v⟩ := kv
      simp only [transformEntries] at h
      cases hr : resolveConsoleValue pe k v with
      | error e =>
          rw [hr] at h
          simp [Bind.bind, Except.bind] at h
      | ok rv =>
          rw [hr] at h
          cases ht : transformEntries pe rest with
          | error e =>
              rw [ht] at h
              simp [Bind.bind, Except.bind] at h
          | ok tail =>
              rw [ht] at h
              simp only [Bind.bind, Except.bind, Except.ok.injEq] at h
              subst h
              rw [consoleTokens, hr]
              by_cases hp : (isString rv || isNumber rv) = true
              · simp only [hp, if_true, ih tail ht, rawJoin]
                simp [rawJoin]
              · simp only [Bool.not_eq_true] at hp
                simp [hp, ih tail ht]

theorem transformEntries_exists_ok (pe : Option (Value → Except String Value))
    (p : Obj)
    (h : ∀ kv ∈ p, ∃ r, resolveConsoleValue pe kv.1 kv.2 = .ok r) :
    ∃ l, transformEntries pe p = .ok l := by
  induction p with
  | nil => exact ⟨[], rfl⟩
  | cons kv rest ih =>
      obtain ⟨k, v⟩ := kv
      obtain ⟨r, hr⟩ := h (k, v) (List.mem_cons_self _ _)
      obtain ⟨tl, htl⟩ := ih (fun kv hkv => h kv (List.mem_cons_of_mem _ hkv))
      refine ⟨(if isString r || isNumber r then tokenChars k r ++ [' '] else []) ++ tl, ?_⟩
      simp only [transformEntries]
      rw [hr, htl]
      rfl

/-! ## Lemmas about the backend event construction -/

theorem constructBackendLogEvent_no_pe_no_error (cfg : LogifyProps)
    (lvl : LoggingLevel) (msg : String) (p : Obj)
    (hpe : cfg.parseError = none) (he : lookupObj p "error" = none) :
    constructBackendLogEvent cfg lvl msg (some p) = .ok
      { payload := plainPayload lvl msg (resolveDefaultParams cfg.defaultParams) p
        jsonLog :=
          (jsonStringify
            (.vObj (plainPayload lvl msg (resolveDefaultParams cfg.defaultParams) p))).getD
            "undefined"
        mutatedParams := some p } := by
  have hfe : formattedErrorOf cfg.parseError (some p) = .ok .vUndefined := by
    simp [formattedErrorOf, hpe, he]
  simp only [constructBackendLogEvent, hfe]
  rfl

theorem constructBackendLogEvent_truthy_fe (cfg : LogifyProps)
    (lvl : LoggingLevel) (msg : String) (p : Obj) (fe : Value)
    (hfe : formattedErrorOf cfg.parseError (some p) = .ok fe)
    (ht : truthyValue fe = true) :
    constructBackendLogEvent cfg lvl msg (some p) = .ok
      { payload :=
          plainPayload lvl msg (resolveDefaultParams cfg.defaultParams)
            (spreadValue (eraseKey p "error") fe)
        jsonLog :=
          (jsonStringify
            (.vObj (plainPayload lvl msg (resolveDefaultParams cfg.defaultParams)
              (spreadValue (eraseKey p "error") fe)))).getD "undefined"
        mutatedParams := some (eraseKey p "error") } := by
  simp only [constructBackendLogEvent, hfe]
  simp [Bind.bind, Except.bind, ht, plainPayload]

theorem constructBackendLogEvent_falsy_fe (cfg : LogifyProps)
    (lvl : LoggingLevel) (msg : String) (p : Obj) (fe : Value)
    (hfe : formattedErrorOf cfg.parseError (some p) = .ok fe)
    (ht : truthyValue fe = false) :
    constructBackendLogEvent cfg lvl msg (some p) = .ok
      { payload := plainPayload lvl msg (resolveDefaultParams cfg.defaultParams) p
        jsonLog :=
          (jsonStringify
            (.vObj (plainPayload lvl msg (resolveDefaultParams cfg.defaultParams) p))).getD
            "undefined"
        mutatedParams := some p } := by
  simp only [constructBackendLogEvent, hfe]
  simp [Bind.bind, Except.bind, ht, plainPayload]

/-! ## Claim theorems -/

/-- Claim C1.  The claim states that a caller-supplied parseError that
throws on the error param is caught locally and the log call still
completes.  The source has no try/catch around either parseError call site
(_transformObjectToLogString and _constructBackendLogEvent), so the
exception propagates to the caller of the log method: evaluated at the
failing input -- a throwing parseError and a params map with an error key
-- the info call terminates with the thrown exception instead of
completing.  This contradicts the spec's stated failure semantics, so the
code, not the claim, is wrong. -/
theorem parseError_exception_escapes_caller :
    (info cfgThrowing "m" (some errorOnlyParams)).thrown = some "boom" := by
  rfl

/-- Claim C5, corrected part.  The sanitizer maps
"User (id=5) logged-in!" to "user id=5 logged-in": the regex strips a
punctuation run only when it touches whitespace or a string boundary, the
equals sign is not in the punctuation class, and the word-internal hyphen
of logged-in survives. -/
theorem sanitize_example_actual :
    sanitizeMessage "User (id=5) logged-in!" = "user id=5 logged-in" := by
  rfl

/-- Claim C5, counterexample.  The claimed output "user id5 loggedin" is
not what the sanitizer produces on the claimed input. -/
theorem sanitize_example_claimed_output_wrong :
    sanitizeMessage "User (id=5) logged-in!" ≠ "user id5 loggedin" := by
  decide

/-- Claim C6, counterexample.  Sanitization is not idempotent: in
"a. -b" the first pass consumes the dot together with the following space,
so the space before the hyphen is part of an earlier match and the hyphen
survives; the second pass then sees " -" and strips it.  Hence
sanitize (sanitize "a. -b") = "a b" differs from sanitize "a. -b" = "a -b". -/
theorem sanitize_not_idempotent :
    sanitizeMessage (sanitizeMessage "a. -b") ≠ sanitizeMessage "a. -b" := by
  decide

/-- Claim C6, amended.  Sanitization is idempotent on every string free of
the sanitizer's punctuation class (on such strings the replace pass is the
identity, and trimming and lowercasing are idempotent). -/
theorem sanitize_idempotent_no_punct (s : String)
    (h : ∀ c ∈ s.data, isPunct c = false) :
    sanitizeMessage (sanitizeMessage s) = sanitizeMessage s := by
  show (⟨sanitizeList (sanitizeList s.data)⟩ : String) = ⟨sanitizeList s.data⟩
  exact congrArg (fun l => (⟨l⟩ : String)) (sanitizeList_idem_of_no_punct s.data h)

/-- Witness for the amended C6 at a concrete punctuation-free string. -/
theorem sanitize_idempotent_no_punct_witness :
    (∀ c ∈ ("Hello  World" : String).data, isPunct c = false) ∧
    sanitizeMessage (sanitizeMessage "Hello  World") = sanitizeMessage "Hello  World" :=
  ⟨by decide, sanitize_idempotent_no_punct "Hello  World" (by decide)⟩

/-- Claim C2, amended.  For every configuration (any console gate, any send
gate) and every message and params map, debug never initiates a network
send; and whenever the call completes (the configured parseError does not
throw on the params' error value -- in particular always, when there is no
error key or no parseError), debug makes exactly one console write,
ignoring the console gate. -/
theorem debug_console_only (cfg : LogifyProps) (msg : String) (p : Option Obj) :
    (debug cfg msg p).sends = [] ∧
    ((debug cfg msg p).thrown = none → (debug cfg msg p).consoleWrites.length = 1) := by
  unfold debug
  cases h : transformObjectToLogString cfg.parseError p with
  | error e => exact ⟨rfl, fun hc => absurd hc (by simp)⟩
  | ok ls => exact ⟨rfl, fun _ => rfl⟩

/-- Claim C2, counterexample.  With a throwing parseError and an error key
in the params, debug makes no console write at all: the exception from the
console-string construction escapes before console.log runs. -/
theorem debug_throwing_parseError_no_console_write :
    (debug cfgThrowing "x" (some errorOnlyParams)).consoleWrites = [] ∧
    (debug cfgThrowing "x" (some errorOnlyParams)).thrown = some "boom" :=
  ⟨rfl, rfl⟩

/-- Witness for the amended C2: with the console gate configured off and a
harmless params map, debug still writes once and sends nothing. -/
theorem debug_console_only_witness :
    (debug cfgConsoleOff "x" (some [("a", .vNum 1)])).sends = [] ∧
    (debug cfgConsoleOff "x" (some [("a", .vNum 1)])).consoleWrites.length = 1 :=
  ⟨(debug_console_only cfgConsoleOff "x" (some [("a", .vNum 1)])).1,
   (debug_console_only cfgConsoleOff "x" (some [("a", .vNum 1)])).2 rfl⟩

/-- Claim C3, amended.  For every message and params map, at every level
sent through the shared body of info/warn/error/fatal: a send gate
configured as the boolean false means no send is ever initiated; an
unconfigured send gate means exactly one send to the configured endpoint is
initiated whenever the call completes (the source does not catch a throwing
parseError, and a call that throws initiates no send). -/
theorem send_gate_behavior (cfg : LogifyProps) (lvl : LoggingLevel)
    (msg : String) (p : Option Obj) :
    (cfg.shouldSendLogsIf = some (Sum.inl false) →
      (logGeneral cfg lvl msg p).sends = []) ∧
    (cfg.shouldSendLogsIf = none → (logGeneral cfg lvl msg p).thrown = none →
      (logGeneral cfg lvl msg p).sends.map SendCall.url = [cfg.endpoint]) := by
  unfold logGeneral
  cases h1 : transformObjectToLogString cfg.parseError p with
  | error e => exact ⟨fun _ => rfl, fun _ hc => absurd hc (by simp)⟩
  | ok ls =>
      cases h2 : constructBackendLogEvent cfg lvl msg p with
      | error e => exact ⟨fun _ => rfl, fun _ hc => absurd hc (by simp)⟩
      | ok ev =>
          constructor
          · intro hg
            simp [sendLogToGrafanaSends, evalGate, hg]
          · intro hg _
            simp [sendLogToGrafanaSends, evalGate, hg]

/-- Claim C3, counterexample.  With the send gate unconfigured but a
throwing parseError and an error key present, an info call initiates no
send (the claim requires exactly one). -/
theorem unconfigured_send_gate_can_skip_send :
    cfgThrowing.shouldSendLogsIf = none ∧
    (info cfgThrowing "m" (some errorOnlyParams)).sends = [] :=
  ⟨rfl, rfl⟩

/-- Witness for the amended C3: boolean-false gate sends nothing;
unconfigured gate sends exactly once to the endpoint. -/
theorem send_gate_behavior_witness :
    (logGeneral cfgSendOff .info "m" (some [("a", .vNum 1)])).sends = [] ∧
    (logGeneral cfgPlain .info "m" (some [("a", .vNum 1)])).sends.map SendCall.url =
      [cfgPlain.endpoint] :=
  ⟨(send_gate_behavior cfgSendOff .info "m" (some [("a", .vNum 1)])).1 rfl,
   (send_gate_behavior cfgPlain .info "m" (some [("a", .vNum 1)])).2 rfl rfl⟩

/-- Claim C7.  With a constant defaultParams map and no parseError in play
(no error key in the call params), the payload is assembled as
level, msg, ...defaultParams, ...params: every caller-supplied param
appears in the payload with the caller's value (overriding a same-named
default), and every default whose key the caller did not supply appears
with the default's value. -/
theorem payload_merge_order (lvl : LoggingLevel) (msg ep : String) (d p : Obj)
    (hndp : (p.map Prod.fst).Nodup) (hndd : (d.map Prod.fst).Nodup)
    (he : lookupObj p "error" = none) :
    ∃ ev,
      constructBackendLogEvent
        { endpoint := ep, defaultParams := some (Sum.inl d) } lvl msg (some p) = .ok ev ∧
      (∀ k v, lookupObj p k = some v → lookupObj ev.payload k = some v) ∧
      (∀ k v, lookupObj d k = some v → k ∉ p.map Prod.fst →
        lookupObj ev.payload k = some v) := by
  refine ⟨_, constructBackendLogEvent_no_pe_no_error _ lvl msg p rfl he, ?_, ?_⟩
  · intro k v hk
    exact lookupObj_spreadObj_mem _ _ _ _ hndp hk
  · intro k v hk hnp
    show lookupObj (plainPayload lvl msg d p) k = some v
    unfold plainPayload
    rw [lookupObj_spreadObj_not_mem _ _ _
      (by
        intro kv hkv heq
        refine hnp ?_
        rw [← heq]
        exact List.mem_map_of_mem Prod.fst hkv)]
    exact lookupObj_spreadObj_mem _ _ _ _ hndd hk

/-- Witness for C7 at the spec's example: defaults env=prod, call params
env=dev and code=7; the payload carries env=dev and code=7. -/
theorem payload_merge_order_witness :
    ∃ ev,
      constructBackendLogEvent cfgDefaultsEnvProd .info "user login" (some envDevParams) =
        .ok ev ∧
      lookupObj ev.payload "env" = some (.vStr "dev") ∧
      lookupObj ev.payload "code" = some (.vNum 7) := by
  obtain ⟨ev, hev, hover, _⟩ :=
    payload_merge_order .info "user login" "https://logs.example/ingest"
      [("env", Value.vStr "prod")] envDevParams (by decide) (by decide) rfl
  exact ⟨ev, hev, hover "env" _ rfl, hover "code" _ rfl⟩

/-- Claim C8.  When the params map contains an error key and the configured
parseError returns the object with code 500 and detail "x", the backend
payload carries code and detail as top-level fields and has no error field
(assuming, as the scenario implies, that the defaults do not themselves
carry an error key). -/
theorem parseError_result_replaces_error_field (lvl : LoggingLevel)
    (msg ep : String) (d p : Obj) (e : Value)
    (hndp : (p.map Prod.fst).Nodup)
    (he : lookupObj p "error" = some e)
    (hd : "error" ∉ d.map Prod.fst) :
    ∃ ev,
      constructBackendLogEvent
        { endpoint := ep, defaultParams := some (Sum.inl d),
          parseError := some code500ParseError } lvl msg (some p) = .ok ev ∧
      lookupObj ev.payload "code" = some (.vNum 500) ∧
      lookupObj ev.payload "detail" = some (.vStr "x") ∧
      lookupObj ev.payload "error" = none := by
  have hfe : formattedErrorOf (some code500ParseError) (some p) =
      .ok (.vObj [("code", .vNum 500), ("detail", .vStr "x")]) := by
    simp [formattedErrorOf, he, code500ParseError, truthyValue, Bind.bind, Except.bind]
  refine ⟨_, constructBackendLogEvent_truthy_fe _ lvl msg p _ hfe rfl, ?_, ?_, ?_⟩
  all_goals
    have hpts : spreadValue (eraseKey p "error")
        (.vObj [("code", .vNum 500), ("detail", .vStr "x")]) =
        setKey (setKey (eraseKey p "error") "code" (.vNum 500)) "detail" (.vStr "x") := rfl
  all_goals
    have hnd2 : ((setKey (setKey (eraseKey p "error") "code" (.vNum 500)) "detail"
        (.vStr "x")).map Prod.fst).Nodup :=
      nodup_keys_setKey _ _ _ (nodup_keys_setKey _ _ _ (nodup_keys_eraseKey _ _ hndp))
  · show lookupObj (plainPayload lvl msg d
        (spreadValue (eraseKey p "error") (.vObj [("code", .vNum 500), ("detail", .vStr "x")])))
        "code" = some (.vNum 500)
    rw [hpts]
    unfold plainPayload
    refine lookupObj_spreadObj_mem _ _ _ _ hnd2 ?_
    rw [lookupObj_setKey_ne _ _ _ _ (by decide), lookupObj_setKey_self]
  · show lookupObj (plainPayload lvl msg d
        (spreadValue (eraseKey p "error") (.vObj [("code", .vNum 500), ("detail", .vStr "x")])))
        "detail" = some (.vStr "x")
    rw [hpts]
    unfold plainPayload
    exact lookupObj_spreadObj_mem _ _ _ _ hnd2 (lookupObj_setKey_self _ _ _)
  · show lookupObj (plainPayload lvl msg d
        (spreadValue (eraseKey p "error") (.vObj [("code", .vNum 500), ("detail", .vStr "x")])))
        "error" = none
    rw [hpts]
    unfold plainPayload
    rw [lookupObj_spreadObj_not_mem _ _ _ ?hpts_ne, lookupObj_spreadObj_not_mem _ _ _ ?hd_ne]
    case hpts_ne =>
      intro kv hkv heq
      have hk : kv.1 ∈ ((setKey (setKey (eraseKey p "error") "code" (.vNum 500)) "detail"
          (.vStr "x")).map Prod.fst) := List.mem_map_of_mem Prod.fst hkv
      rw [heq] at hk
      rcases keys_setKey_subset _ _ _ _ hk with h3 | h3
      · rcases keys_setKey_subset _ _ _ _ h3 with h4 | h4
        · exact not_mem_keys_eraseKey p "error" h4
        · exact absurd h4 (by decide)
      · exact absurd h3 (by decide)
    case hd_ne =>
      intro kv hkv heq
      refine hd ?_
      rw [← heq]
      exact List.mem_map_of_mem Prod.fst hkv
    rfl

/-- Witness for C8 at a concrete call: params carrying an error key and one
ordinary entry, defaults env=prod, parseError returning code 500 and
detail "x". -/
theorem parseError_result_replaces_error_field_witness :
    ∃ ev,
      constructBackendLogEvent cfgCode500 .error "fail"
        (some [("error", Value.vNull), ("u", Value.vNum 2)]) = .ok ev ∧
      lookupObj ev.payload "code" = some (.vNum 500) ∧
      lookupObj ev.payload "detail" = some (.vStr "x") ∧
      lookupObj ev.payload "error" = none := by
  obtain ⟨ev, hev, h1, h2, h3⟩ :=
    parseError_result_replaces_error_field .error "fail" "https://logs.example/ingest"
      [("env", Value.vStr "prod")] [("error", Value.vNull), ("u", Value.vNum 2)]
      Value.vNull (by decide) rfl (by decide)
  exact ⟨ev, hev, h1, h2, h3⟩

/-- Claim C4, counterexample.  parseError configured and returning a falsy
result (undefined) for a non-null, truthy error value: the raw error field
does not remain in the payload -- the || fallback makes the raw value the
formatted error, the error key is deleted, and the raw value's fields are
merged (here the field reason appears and error does not). -/
theorem falsy_parseError_error_field_dropped :
    (constructBackendLogEvent cfgFalsyPE .info "m" (some truthyErrorParams)).map
        (fun ev => lookupObj ev.payload "error") = .ok none ∧
    (constructBackendLogEvent cfgFalsyPE .info "m" (some truthyErrorParams)).map
        (fun ev => lookupObj ev.payload "reason") = .ok (some (.vStr "r")) :=
  ⟨rfl, rfl⟩

/-- Claim C4, amended.  With parseError returning a falsy result for the
error value: when the raw error value is itself falsy (e.g. the number 0)
the raw error field does remain in the payload unmerged; when the raw error
value is truthy, the || fallback promotes the raw value itself to the
formatted error, so the error key is deleted (observably, from the caller's
map) and the payload carries no error field (unless the raw value's own
enumerable fields themselves include one). -/
theorem falsy_parseError_fallback (lvl : LoggingLevel) (msg ep : String)
    (pf : Value → Except String Value) (p : Obj) (e r : Value)
    (hndp : (p.map Prod.fst).Nodup)
    (he : lookupObj p "error" = some e)
    (hr : pf e = .ok r)
    (hfalsy : truthyValue r = false) :
    (truthyValue e = false →
      ∃ ev,
        constructBackendLogEvent { endpoint := ep, parseError := some pf } lvl msg (some p) =
          .ok ev ∧
        lookupObj ev.payload "error" = some e) ∧
    (truthyValue e = true →
      ∃ ev,
        constructBackendLogEvent { endpoint := ep, parseError := some pf } lvl msg (some p) =
          .ok ev ∧
        ev.mutatedParams = some (eraseKey p "error") ∧
        ("error" ∉ (ownEnumerable e).map Prod.fst →
          lookupObj ev.payload "error" = none)) := by
  have hfe : formattedErrorOf (some pf) (some p) = .ok e := by
    simp [formattedErrorOf, he, Bind.bind, Except.bind, hr, hfalsy]
  constructor
  · intro hf
    refine ⟨_, constructBackendLogEvent_falsy_fe _ lvl msg p e hfe hf, ?_⟩
    show lookupObj (plainPayload lvl msg (resolveDefaultParams none) p) "error" = some e
    unfold plainPayload
    exact lookupObj_spreadObj_mem _ _ _ _ hndp he
  · intro ht
    refine ⟨_, constructBackendLogEvent_truthy_fe _ lvl msg p e hfe ht, rfl, ?_⟩
    intro hown
    show lookupObj (plainPayload lvl msg (resolveDefaultParams none)
      (spreadValue (eraseKey p "error") e)) "error" = none
    unfold plainPayload spreadValue
    rw [lookupObj_spreadObj_not_mem _ _ _ ?pts_ne]
    case pts_ne =>
      intro kv hkv heq
      have hk : kv.1 ∈ ((spreadObj (eraseKey p "error") (ownEnumerable e)).map Prod.fst) :=
        List.mem_map_of_mem Prod.fst hkv
      rw [heq] at hk
      rcases keys_spreadObj_subset _ _ _ hk with h3 | h3
      · exact not_mem_keys_eraseKey p "error" h3
      · exact hown h3
    rfl

/-- Witness for the amended C4, both branches: a falsy raw error (the
number 0) keeps its raw error field; a truthy raw error object loses the
error key (also in the caller's map) and carries no error field. -/
theorem falsy_parseError_fallback_witness :
    (∃ ev,
      constructBackendLogEvent cfgFalsyPE .info "m" (some [("error", Value.vNum 0)]) =
        .ok ev ∧
      lookupObj ev.payload "error" = some (Value.vNum 0)) ∧
    (∃ ev,
      constructBackendLogEvent cfgFalsyPE .info "m" (some truthyErrorParams) = .ok ev ∧
      ev.mutatedParams = some (eraseKey truthyErrorParams "error") ∧
      lookupObj ev.payload "error" = none) := by
  constructor
  · obtain ⟨h1, _⟩ :=
      falsy_parseError_fallback .info "m" "https://logs.example/ingest" falsyParseError
        [("error", Value.vNum 0)] (Value.vNum 0) Value.vUndefined (by decide) rfl rfl rfl
    exact h1 rfl
  · obtain ⟨_, h2⟩ :=
      falsy_parseError_fallback .info "m" "https://logs.example/ingest" falsyParseError
        truthyErrorParams (Value.vObj [("reason", Value.vStr "r")]) Value.vUndefined
        (by decide) rfl rfl rfl
    obtain ⟨ev, hev, hm, hno⟩ := h2 rfl
    exact ⟨ev, hev, hm, hno (by decide)⟩

/-- Claim C9.  For every params map and every configured parseError, when
the console log-string rendering exists (the resolution did not throw), it
is exactly the trimmed space-join of one key=value token per entry whose
resolved value (parseError output under the error key, the raw value
otherwise) is a string or a number -- entries with any other resolved
value, such as a nested object or array under an ordinary key, contribute
no token. -/
theorem console_rendering_tokens (pe : Option (Value → Except String Value))
    (p : Obj) (s : String)
    (h : transformObjectToLogString pe (some p) = .ok s) :
    s.data = jsTrimList (intercalateSpace (consoleTokens pe p)) := by
  cases hte : transformEntries pe p with
  | error e =>
      simp only [transformObjectToLogString, hte, Except.map] at h
      cases h
  | ok l =>
      simp only [transformObjectToLogString, hte, Except.map, Except.ok.injEq] at h
      subst h
      show jsTrimList l = jsTrimList (intercalateSpace (consoleTokens pe p))
      rw [transformEntries_ok pe p l hte]
      exact jsTrimList_rawJoin _

/-- Witness for C9: a number and string entry each yield one token, the
nested-object entry yields none. -/
theorem console_rendering_tokens_witness :
    transformObjectToLogString none (some mixedParams) = .ok "a=1 s=x" ∧
    ("a=1 s=x" : String).data = jsTrimList (intercalateSpace (consoleTokens none mixedParams)) :=
  ⟨rfl, console_rendering_tokens none mixedParams "a=1 s=x" rfl⟩

/-- Claim C10.  A call through the shared info/warn/error/fatal body with a
params map containing an error key whose resolved error value is truthy
deletes the error key from the caller's own params map: after the call the
caller's map is the original with the error entry removed, and an error
lookup on it misses. -/
theorem log_call_mutates_caller_params (cfg : LogifyProps) (lvl : LoggingLevel)
    (msg : String) (p : Obj) (e fe : Value)
    (hnd : (p.map Prod.fst).Nodup)
    (he : lookupObj p "error" = some e)
    (hfe : formattedErrorOf cfg.parseError (some p) = .ok fe)
    (ht : truthyValue fe = true) :
    (logGeneral cfg lvl msg (some p)).callerParams = some (eraseKey p "error") ∧
    lookupObj (eraseKey p "error") "error" = none := by
  refine ⟨?_, lookupObj_eq_none_of_not_mem _ _ (not_mem_keys_eraseKey p "error")⟩
  have hres : ∀ kv ∈ p, ∃ r, resolveConsoleValue cfg.parseError kv.1 kv.2 = .ok r := by
    intro kv hkv
    cases hpe : cfg.parseError with
    | none => exact ⟨kv.2, by simp [resolveConsoleValue]⟩
    | some f =>
        by_cases hk : kv.1 = "error"
        · have hmem : ("error", kv.2) ∈ p := by
            rw [← hk]
            simpa using hkv
          have hv : kv.2 = e := lookupObj_mem_value_unique p "error" e hnd he kv.2 hmem
          rw [hpe] at hfe
          simp only [formattedErrorOf, he, Option.getD_some] at hfe
          cases hfo : f e with
          | error err =>
              rw [hfo] at hfe
              simp [Bind.bind, Except.bind] at hfe
          | ok r' =>
              exact ⟨r', by simp [resolveConsoleValue, hk, hv, hfo]⟩
        · exact ⟨kv.2, by simp [resolveConsoleValue, hk]⟩
  obtain ⟨l, hl⟩ := transformEntries_exists_ok cfg.parseError p hres
  have htr : transformObjectToLogString cfg.parseError (some p) = .ok ⟨jsTrimList l⟩ := by
    simp only [transformObjectToLogString, hl, Except.map]
  have hev := constructBackendLogEvent_truthy_fe cfg lvl msg p fe hfe ht
  simp only [logGeneral, htr, hev]

/-- Witness for C10: with no parseError configured and a truthy raw error
value, the caller's map after an info-level call has lost its error entry. -/
theorem log_call_mutates_caller_params_witness :
    (logGeneral cfgPlain .info "m" (some truthyErrorParams)).callerParams =
      some (eraseKey truthyErrorParams "error") ∧
    lookupObj (eraseKey truthyErrorParams "error") "error" = none :=
  log_call_mutates_caller_params cfgPlain .info "m" truthyErrorParams
    (Value.vObj [("reason", Value.vStr "r")]) (Value.vObj [("reason", Value.vStr "r")])
    (by decide) rfl rfl rfl

end Logify
